import Mathlib

/-
A shallow embedding of the single-header ECS engine (src/ecs.hpp).

Memory model: each `ObjectPool` block is a list of chunks; a chunk address is
the pair (block index, slot index).  Null pointers are `Option.none`; C++
undefined behaviour (null dereference, out-of-range vector indexing,
`m_blocks.front()` on an empty list) and `assert` / `std::exit` failures are
modelled as `Except.error` with a `Fault` describing the halt.  Raw component
bytes are modelled by an `Option V` payload (none = uninitialised or
destructed) and destructor invocations are counted per chunk.
-/

namespace ecs

/-- Sentinel entity id, `ECS_ENTITY_DESTROYED = Entity{std::string::npos}`. -/
def ECS_ENTITY_DESTROYED : Nat := 2 ^ 64 - 1

/-- `ECS_REGISTRY_DEFAULT_POOL_BLOCK_SIZE` from the header. -/
def ECS_REGISTRY_DEFAULT_POOL_BLOCK_SIZE : Nat := 30

/-- Address of a chunk: (block index in `m_blocks`, slot index inside the block). -/
abbrev Addr := Nat × Nat

/-- The ways an operation can halt abnormally (assert, `std::exit`, or UB). -/
inductive Fault where
  | typeContradiction
  | assertFailed
  | nullDeref
  | invalidAddr
deriving DecidableEq

/-- `ObjectPoolChunk`: header (`next`, `prev`, `entity`) followed by the payload
bytes; `dtorCount` counts destructor invocations on the payload. -/
structure Chunk (V : Type) where
  next : Option Addr
  prev : Option Addr
  entity : Nat
  payload : Option V
  dtorCount : Nat
deriving DecidableEq

/-- `ObjectPool` state: registered type identity, block size, the block list
`m_blocks`, the fresh-slot cursor `m_next`, and the free list
`m_freed_locations` (back of the list = most recently freed).  The type-erased
default-constructor callback is modelled by the value it writes. -/
structure ObjectPool (V : Type) where
  type_name : String
  type_size : Nat
  type_hash : Nat
  block_size : Nat
  blocks : List (List (Chunk V))
  next : Option Addr
  freed_locations : List Addr
  default_value : V
deriving DecidableEq

namespace ObjectPool

variable {V : Type}

/-- `ObjectPool::ObjectPool` (also `ObjectPool::create<T>`): the constructor
asserts the name is non-empty and the sizes are positive. -/
def create (name : String) (size : Nat) (hash : Nat) (block_size : Nat) (dflt : V) :
    Except Fault (ObjectPool V) :=
  if name.length > 0 ∧ size > 0 ∧ block_size > 0 then
    .ok { type_name := name, type_size := size, type_hash := hash,
          block_size := block_size, blocks := [], next := none,
          freed_locations := [], default_value := dflt }
  else .error .assertFailed

/-- Dereference a chunk pointer. -/
def getChunk (p : ObjectPool V) (a : Addr) : Option (Chunk V) :=
  match p.blocks.get? a.1 with
  | none => none
  | some b => b.get? a.2

/-- Write a chunk through a pointer. -/
def setChunk (p : ObjectPool V) (a : Addr) (c : Chunk V) : ObjectPool V :=
  { p with blocks := p.blocks.set a.1 ((p.blocks.getD a.1 []).set a.2 c) }

/-- The fresh block `_allocate_block` lays out at block index
`p.blocks.length`: `block_size` chunks whose headers form the in-block
forward/backward chain, every owner the destroyed sentinel, the first chunk's
`prev` the old `m_next`, the last chunk's `next` null. -/
def newBlock (p : ObjectPool V) : List (Chunk V) :=
  (List.range p.block_size).map fun i =>
    { next := if i = p.block_size - 1 then none else some (p.blocks.length, i + 1)
      prev := if i = 0 then p.next else some (p.blocks.length, i - 1)
      entity := ECS_ENTITY_DESTROYED
      payload := none
      dtorCount := 0 }

/-- `ObjectPool::_allocate_block`: malloc a block of `block_size` chunks,
thread the in-block chain, append it to `m_blocks`, and move `m_next` onto the
new block.  The branch that links the old `m_next` into the new block is kept
faithfully (it dereferences the old `m_next`). -/
def allocate_block (p : ObjectPool V) : Except Fault (ObjectPool V) :=
  match p.next with
  | none =>
    .ok { p with blocks := p.blocks ++ [p.newBlock], next := some (p.blocks.length, 0) }
  | some a =>
    match ({ p with blocks := p.blocks ++ [p.newBlock] } : ObjectPool V).getChunk a with
    | none => .error .invalidAddr
    | some c =>
      .ok { (({ p with blocks := p.blocks ++ [p.newBlock] } : ObjectPool V).setChunk a
               { c with next := some (p.blocks.length, 0) }) with
            next := some (p.blocks.length, 0) }

/-- `ObjectPool::_construct`: tag the chunk with the entity, placement-new the
payload, then advance `m_next = m_next->next` (a null dereference when
`m_next` is null). -/
def construct (p : ObjectPool V) (e : Nat) (a : Addr) (v : V) :
    Except Fault (ObjectPool V × Addr) :=
  match p.getChunk a with
  | none => .error .invalidAddr
  | some c =>
    let q := p.setChunk a { c with entity := e, payload := some v }
    match q.next with
    | none => .error .nullDeref
    | some na =>
      match q.getChunk na with
      | none => .error .invalidAddr
      | some nc => .ok ({ q with next := nc.next }, a)

/-- Shared body of both `ObjectPool::malloc` overloads: reuse the back of the
free list if non-empty, else allocate a block when `m_next` is null, then
construct at `m_next`. -/
def mallocCore (p : ObjectPool V) (e : Nat) (v : V) : Except Fault (ObjectPool V × Addr) :=
  match p.freed_locations.getLast? with
  | some a =>
    match p.construct e a v with
    | .error f => .error f
    | .ok (q, addr) => .ok ({ q with freed_locations := q.freed_locations.dropLast }, addr)
  | none =>
    match (if p.next = none then p.allocate_block else .ok p) with
    | .error f => .error f
    | .ok q =>
      match q.next with
      | none => .error .nullDeref
      | some a => q.construct e a v

/-- `ObjectPool::malloc<T>(entity, args...)`: type-contradiction guard on the
computed name of `T`, then the shared allocation body; `v` is the value
`T(args...)` constructs. -/
def malloc (p : ObjectPool V) (tname : String) (e : Nat) (v : V) :
    Except Fault (ObjectPool V × Addr) :=
  if tname = p.type_name then p.mallocCore e v else .error .typeContradiction

/-- `ObjectPool::malloc(entity)` (type-erased): no guard, constructs with the
stored default-constructor callback. -/
def malloc_default (p : ObjectPool V) (e : Nat) : Except Fault (ObjectPool V × Addr) :=
  p.mallocCore e p.default_value

/-- `ObjectPool::free<T>(type*)`: type-contradiction guard, run the destructor,
mark the owning entity destroyed, push the chunk on the free list. -/
def free (p : ObjectPool V) (tname : String) (a : Addr) : Except Fault (ObjectPool V) :=
  if tname = p.type_name then
    match p.getChunk a with
    | none => .error .invalidAddr
    | some c =>
      .ok { (p.setChunk a { c with entity := ECS_ENTITY_DESTROYED, payload := none,
                                   dtorCount := c.dtorCount + 1 }) with
            freed_locations := p.freed_locations ++ [a] }
  else .error .typeContradiction

/-- `ObjectPool::free(ObjectPoolChunk*)`: same as above through the stored
destructor callback, without the type guard. -/
def free_chunk (p : ObjectPool V) (a : Addr) : Except Fault (ObjectPool V) :=
  match p.getChunk a with
  | none => .error .invalidAddr
  | some c =>
    .ok { (p.setChunk a { c with entity := ECS_ENTITY_DESTROYED, payload := none,
                                 dtorCount := c.dtorCount + 1 }) with
          freed_locations := p.freed_locations ++ [a] }

/-- Total number of chunks across all blocks (used as walk fuel; every
reachable chain is acyclic and shorter than this). -/
def totalChunks (p : ObjectPool V) : Nat := (p.blocks.map List.length).sum

/-- The `while (chunk != nullptr)` walk shared by the three lookup functions. -/
def walkFind (p : ObjectPool V) (e : Nat) : Nat → Option Addr → Except Fault (Option Addr)
  | _, none => .ok none
  | 0, some _ => .error .invalidAddr
  | fuel + 1, some a =>
    match p.getChunk a with
    | none => .error .invalidAddr
    | some c => if c.entity = e then .ok (some a) else p.walkFind e fuel c.next

/-- `ObjectPool::get_entitys_object` / `get_entitys_object_pool_chunk`: start
at the first chunk of `m_blocks.front()` (undefined when there is no block)
and follow `next` until the entity matches or the chain ends. -/
def get_entitys_object (p : ObjectPool V) (e : Nat) : Except Fault (Option Addr) :=
  match p.blocks with
  | [] => .error .invalidAddr
  | _ :: _ => p.walkFind e (p.totalChunks + 1) (some (0, 0))

end ObjectPool

/-- The compile-time type identity `create_component<T>` and friends compute:
the cleaned type name and its FNV hash (plus `sizeof(T)`).  Distinct component
types have distinct names; the hash is whatever `get_hash` yields on the name. -/
structure TypeKey where
  name : String
  hash : Nat
  size : Nat
deriving DecidableEq

/-- `Registry` state: the entity array `m_entities` (a destroyed slot holds the
sentinel), the destroyed-id stack `m_destroyed_entities`, and the pool list. -/
structure Registry (V : Type) where
  entities : List Nat
  destroyed_entities : List Nat
  pools : List (ObjectPool V)
deriving DecidableEq

namespace Registry

variable {V : Type}

/-- `Registry()` default-constructs everything empty. -/
def empty : Registry V := ⟨[], [], []⟩

/-- `Registry::create_entity`: pop the most recently destroyed id and
reactivate it, else append a fresh id equal to the entity count.  The
`m_entities[id]` store is undefined when the popped id is out of range. -/
def create_entity (r : Registry V) : Except Fault (Registry V × Nat) :=
  match r.destroyed_entities.getLast? with
  | some id =>
    if id < r.entities.length then
      .ok ({ r with entities := r.entities.set id id,
                    destroyed_entities := r.destroyed_entities.dropLast }, id)
    else .error .invalidAddr
  | none =>
    .ok ({ r with entities := r.entities ++ [r.entities.length] }, r.entities.length)

/-- `Registry::get_pool(hash)`: linear scan of registered pools by type hash;
returns the index of the first match. -/
def get_pool (r : Registry V) (hash : Nat) : Option Nat :=
  r.pools.findIdx? fun p => p.type_hash = hash

/-- The body of the per-pool loop in `Registry::destroy_entity`: look up the
entity's chunk and free it if found. -/
def destroy_pool_step (e : Nat) (p : ObjectPool V) : Except Fault (ObjectPool V) :=
  match p.get_entitys_object e with
  | .error f => .error f
  | .ok none => .ok p
  | .ok (some a) =>
    match p.getChunk a with
    | none => .error .invalidAddr
    | some c => if c.entity = e then p.free_chunk a else .ok p

/-- The `for (ObjectPool* pool : m_pools)` loop, abnormal halt propagated. -/
def mapPools (f : ObjectPool V → Except Fault (ObjectPool V)) :
    List (ObjectPool V) → Except Fault (List (ObjectPool V))
  | [] => .ok []
  | p :: ps =>
    match f p with
    | .error e => .error e
    | .ok q =>
      match mapPools f ps with
      | .error e => .error e
      | .ok qs => .ok (q :: qs)

/-- `Registry::destroy_entity`: asserts the argument is not the sentinel and is
in range, marks the entity slot destroyed, pushes the id on the destroyed
stack, then frees the entity's chunk in every pool that has one. -/
def destroy_entity (r : Registry V) (e : Nat) : Except Fault (Registry V) :=
  if e = ECS_ENTITY_DESTROYED then .error .assertFailed
  else if e < r.entities.length then
    match mapPools (destroy_pool_step e) r.pools with
    | .error f => .error f
    | .ok pools' =>
      .ok { entities := r.entities.set e ECS_ENTITY_DESTROYED,
            destroyed_entities := r.destroyed_entities ++ [e],
            pools := pools' }
  else .error .assertFailed

/-- `Registry::create_component<T>(entity, args...)`: asserts the entity is not
the sentinel, finds or lazily registers the pool for `T` (default block size),
and delegates to `malloc<T>`; `v` is the value `T(args...)` constructs and
`d` the value `T()` constructs (the captured default-constructor callback). -/
def create_component (r : Registry V) (k : TypeKey) (e : Nat) (v : V) (d : V) :
    Except Fault (Registry V × (Nat × Addr)) :=
  if e = ECS_ENTITY_DESTROYED then .error .assertFailed
  else
    match r.get_pool k.hash with
    | some i =>
      match r.pools.get? i with
      | none => .error .invalidAddr
      | some p =>
        match p.malloc k.name e v with
        | .error f => .error f
        | .ok (p', a) => .ok ({ r with pools := r.pools.set i p' }, (i, a))
    | none =>
      match ObjectPool.create k.name k.size k.hash ECS_REGISTRY_DEFAULT_POOL_BLOCK_SIZE d with
      | .error f => .error f
      | .ok p =>
        match p.malloc k.name e v with
        | .error f => .error f
        | .ok (p', a) => .ok ({ r with pools := r.pools ++ [p'] }, (r.pools.length, a))

/-- The type-erased `Registry::create_component(entity, id, name, size,
deconstructor, default_constructor, block_size)`: same find-or-register logic
keyed by the explicit hash, then the unguarded `malloc(entity)`. -/
def create_component_erased (r : Registry V) (hash : Nat) (name : String) (size : Nat)
    (d : V) (block_size : Nat) (e : Nat) : Except Fault (Registry V × (Nat × Addr)) :=
  if e = ECS_ENTITY_DESTROYED then .error .assertFailed
  else
    match r.get_pool hash with
    | some i =>
      match r.pools.get? i with
      | none => .error .invalidAddr
      | some p =>
        match p.malloc_default e with
        | .error f => .error f
        | .ok (p', a) => .ok ({ r with pools := r.pools.set i p' }, (i, a))
    | none =>
      match ObjectPool.create name size hash block_size d with
      | .error f => .error f
      | .ok p =>
        match p.malloc_default e with
        | .error f => .error f
        | .ok (p', a) => .ok ({ r with pools := r.pools ++ [p'] }, (r.pools.length, a))

/-- `Registry::get_component<T>(entity)`: resolve `T`'s pool by hash (absent
gives null) and delegate to the pool's lookup.  The result is the payload
pointer as (pool index, chunk address). -/
def get_component (r : Registry V) (k : TypeKey) (e : Nat) :
    Except Fault (Option (Nat × Addr)) :=
  match r.get_pool k.hash with
  | none => .ok none
  | some i =>
    match r.pools.get? i with
    | none => .error .invalidAddr
    | some p =>
      match p.get_entitys_object e with
      | .error f => .error f
      | .ok oa => .ok (oa.map fun a => (i, a))

end Registry

/-- `View<T, Ts...>` state: the ordered required type keys (K = `keys.length`,
at least 1 in C++) and the cached pointer tuple `m_reserved_from_valid`,
position-indexed. -/
structure View (V : Type) where
  keys : List TypeKey
  cache : List (Option (Nat × Addr))
deriving DecidableEq

namespace View

variable {V : Type}

/-- `View::fill_result`: for each required type in order resolve the pool and
look the entity up; on success cache the pointer and count it, then recurse;
on the first failure stop (the remaining cache slots stay cleared). -/
def fill_result (r : Registry V) (e : Nat) :
    List TypeKey → Except Fault (List (Option (Nat × Addr)) × Nat)
  | [] => .ok ([], 0)
  | k :: ks =>
    match r.get_pool k.hash with
    | none => .ok (none :: ks.map (fun _ => none), 0)
    | some i =>
      match r.pools.get? i with
      | none => .error .invalidAddr
      | some p =>
        match p.get_entitys_object e with
        | .error f => .error f
        | .ok none => .ok (none :: ks.map (fun _ => none), 0)
        | .ok (some a) =>
          match fill_result r e ks with
          | .error f => .error f
          | .ok (rest, n) => .ok (some (i, a) :: rest, n + 1)

/-- `View::has_required(entity)`: false immediately on the sentinel (cache
untouched); otherwise clear the cache and either run `fill_result` over all K
types and compare the found count with K, or — the K = 1 specialisation — do
the single lookup directly. -/
def has_required (w : View V) (r : Registry V) (e : Nat) :
    Except Fault (View V × Bool) :=
  if e = ECS_ENTITY_DESTROYED then .ok (w, false)
  else
    match w.keys with
    | k :: k2 :: ks =>
      match fill_result r e (k :: k2 :: ks) with
      | .error f => .error f
      | .ok (cache, n) => .ok ({ w with cache := cache }, n = (k :: k2 :: ks).length)
    | [k] =>
      match r.get_pool k.hash with
      | none => .ok ({ w with cache := [none] }, false)
      | some i =>
        match r.pools.get? i with
        | none => .error .invalidAddr
        | some p =>
          match p.get_entitys_object e with
          | .error f => .error f
          | .ok none => .ok ({ w with cache := [none] }, false)
          | .ok (some a) => .ok ({ w with cache := [some (i, a)] }, true)
    | [] => .ok ({ w with cache := [] }, false)

/-- `View::get<Target>()`: the cached pointer for the given required type. -/
def get (w : View V) (k : TypeKey) : Option (Nat × Addr) :=
  match w.keys.findIdx? (fun k' => k' = k) with
  | none => none
  | some i => w.cache.getD i none

/-- The spec's description of the per-entity requirement scan, written from its
words: for each required type in order, resolve its pool via the registry and
call the pool lookup; collect the pointers of the successful prefix and stop
checking remaining types at the first failure. -/
def ref_found (r : Registry V) (e : Nat) :
    List TypeKey → Except Fault (List (Nat × Addr))
  | [] => .ok []
  | k :: ks =>
    match r.get_pool k.hash with
    | none => .ok []
    | some i =>
      match r.pools.get? i with
      | none => .error .invalidAddr
      | some p =>
        match p.get_entitys_object e with
        | .error f => .error f
        | .ok none => .ok []
        | .ok (some a) =>
          match ref_found r e ks with
          | .error f => .error f
          | .ok rest => .ok ((i, a) :: rest)

/-- The spec's description of `has_required`, written from its words: false
immediately on the destroyed sentinel, else clear the cached pointers, run the
in-order short-circuit scan over all K required types, cache the found
pointers under their types, and return true iff the found count equals K. -/
def has_required_ref (w : View V) (r : Registry V) (e : Nat) :
    Except Fault (View V × Bool) :=
  if e = ECS_ENTITY_DESTROYED then .ok (w, false)
  else
    match ref_found r e w.keys with
    | .error f => .error f
    | .ok found =>
      .ok ({ w with cache :=
               found.map some ++ List.replicate (w.keys.length - found.length) none },
           found.length = w.keys.length)

end View

/-- One caller-visible registry operation. -/
inductive Op (V : Type) where
  | create_entity
  | destroy_entity (e : Nat)
  | create_component (k : TypeKey) (e : Nat) (v : V) (d : V)
  | create_component_erased (hash : Nat) (name : String) (size : Nat)
      (d : V) (block_size : Nat) (e : Nat)

namespace Registry

variable {V : Type}

/-- Execute one operation, keeping only the registry state. -/
def step (r : Registry V) : Op V → Except Fault (Registry V)
  | .create_entity => (r.create_entity).map Prod.fst
  | .destroy_entity e => r.destroy_entity e
  | .create_component k e v d => (r.create_component k e v d).map Prod.fst
  | .create_component_erased h n s d bs e =>
      (r.create_component_erased h n s d bs e).map Prod.fst

/-- Execute a sequence of operations; an abnormal halt stops the run. -/
def run (r : Registry V) : List (Op V) → Except Fault (Registry V)
  | [] => .ok r
  | op :: ops =>
    match r.step op with
    | .error f => .error f
    | .ok r' => run r' ops

end Registry

/-- Structural well-formedness of a pool's block storage: a positive block
size, at least one allocated block, and every block holding exactly
`block_size` chunks. -/
abbrev ObjectPool.WFBlocks {V : Type} (p : ObjectPool V) : Prop :=
  0 < p.block_size ∧ p.blocks ≠ [] ∧ ∀ b ∈ p.blocks, b.length = p.block_size

/-- Every pool registered in the registry has well-formed block storage. -/
abbrev Registry.WFPools {V : Type} (r : Registry V) : Prop :=
  ∀ p ∈ r.pools, p.WFBlocks

end ecs

open ecs

/-! Concrete program runs used to settle claims against the code.  Component
values are modelled over `V := Nat`. -/

/-- A pool for a type named `"T"` with `block_size = 2` and three components
allocated for entities 0, 1, 2: the third allocation fills the first slot of a
second block. -/
def c1_state : Except Fault (ObjectPool Nat) := do
  let p ← ObjectPool.create "T" 4 77 2 0
  let (p, _) ← p.malloc "T" 0 10
  let (p, _) ← p.malloc "T" 1 11
  let (p, _) ← p.malloc "T" 2 12
  pure p

/-- Block-size-2 pool after allocating for entities 0 and 1 and freeing
entity 1's slot: one block, the freed slot on the free list, `m_next` null. -/
def c2_mid : Except Fault (ObjectPool Nat) := do
  let p ← ObjectPool.create "T" 4 77 2 0
  let (p, _) ← p.malloc "T" 0 10
  let (p, a1) ← p.malloc "T" 1 11
  p.free "T" a1

/-- The subsequent reuse allocation on `c2_mid`. -/
def c2_final : Except Fault (ObjectPool Nat × Addr) := do
  let p ← c2_mid
  p.malloc "T" 2 12

/-- Registry with three entities, each holding one component created through
the type-erased path with `block_size = 2` (entity 2's component sits in the
second block), after `destroy_entity(2)`. -/
def c3_state : Except Fault (Registry Nat) := do
  let r : Registry Nat := Registry.empty
  let (r, _) ← r.create_entity
  let (r, _) ← r.create_entity
  let (r, _) ← r.create_entity
  let (r, _) ← r.create_component_erased 99 "NameComponent" 8 5 2 0
  let (r, _) ← r.create_component_erased 99 "NameComponent" 8 5 2 1
  let (r, _) ← r.create_component_erased 99 "NameComponent" 8 5 2 2
  r.destroy_entity 2

/-- Registry with one entity, destroyed twice in a row. -/
def c4_state : Except Fault (Registry Nat) := do
  let (r, _) ← (Registry.empty (V := Nat)).create_entity
  let r ← r.destroy_entity 0
  r.destroy_entity 0

/-- The type key of the component type used in the `c5_state` run. -/
def c5_key : TypeKey := ⟨"TransformComponent", 123, 36⟩

/-- Registry with 31 entities, each given a component via the statically typed
`create_component` (default block size 30, component value `100 + i`): entity
30's component is the first slot of the pool's second block. -/
def c5_state : Except Fault (Registry Nat) := do
  let r : Registry Nat := Registry.empty
  let r ← (List.range 31).foldlM (fun (r : Registry Nat) _ => do
      let (r, _) ← r.create_entity
      pure r) r
  (List.range 31).foldlM (fun (r : Registry Nat) i => do
      let (r, _) ← r.create_component c5_key i (100 + i) 0
      pure r) r


/-- A one-block, block-size-1 pool for a type named `"B"` with one live
component (entity 0, value 7), used to instantiate the type-guard theorem. -/
def c8_witness_pool : ObjectPool Nat :=
  ⟨"B", 1, 2, 1, [[⟨none, none, 0, some 7, 0⟩]], none, [], 0⟩

/-- A block-size-2 pool for a type named `"Vector3"` after two allocations and
one free: the free list is non-empty and `m_next` is null. -/
def c8_pool : Except Fault (ObjectPool Nat) := do
  let p ← ObjectPool.create "Vector3" 12 55 2 0
  let (p, _) ← p.malloc "Vector3" 4 40
  let (p, a1) ← p.malloc "Vector3" 5 41
  p.free "Vector3" a1

/-- A view requiring the single type `"A"`, used to instantiate claim C6. -/
def c6_view : View Nat := ⟨[⟨"A", 11, 4⟩], []⟩

/-- A registry with two live entities 0 and 1. -/
def c7_base : Registry Nat := ⟨[0, 1], [], []⟩

/-- `c7_base` after `destroy_entity(1)`: slot 1 destroyed, id 1 on the
destroyed-id stack. -/
def c7_registry : Registry Nat := ⟨[0, ECS_ENTITY_DESTROYED], [1], []⟩

/-- The pool produced by one type-erased component creation with
`block_size = 1`: a single block whose only chunk belongs to entity 0. -/
def c10_pool : ObjectPool Nat :=
  ⟨"A", 1, 7, 1, [[⟨none, none, 0, some 0, 0⟩]], none, [], 0⟩

/-- The registry after that single component creation. -/
def c10_registry : Registry Nat := ⟨[], [], [c10_pool]⟩

/-- Claim C1: `get_entitys_object` is claimed to scan every slot of every
allocated block and find a component allocated into any block.  The code fails
this: `_allocate_block` never links an exhausted block's chain to the next
block (its linking branch requires `m_next != nullptr`, but it is only called
when `m_next == nullptr`), so after three allocations in a block-size-2 pool
the pool has two blocks and entity 2's component occupies chunk (1,0), yet
`get_entitys_object(2)` walks only block 0 and reports absence. -/
theorem c1_lookup_misses_second_block :
    c1_state.map (fun p => (p.blocks.length,
        (p.getChunk (1, 0)).map Chunk.entity,
        p.get_entitys_object 2)) =
      .ok (2, some 2, .ok none) := rfl

/-- Claim C2: with `block_size = 2`, after two allocations and one free, the
free list holds the freed slot and the block count is 1; but the claimed
reuse allocation does not complete: `_construct` executes
`m_next = m_next->next` even on the free-list path, and `m_next` is null once
the block is exhausted, so the reuse `malloc` dereferences null. -/
theorem c2_reuse_dereferences_null :
    c2_mid.map (fun p => (p.blocks.length, p.freed_locations)) = .ok (1, [(0, 1)]) ∧
    c2_final = .error .nullDeref := ⟨rfl, rfl⟩

/-- Claim C3: `destroy_entity` is claimed to free the entity's component in
every pool regardless of the block it resides in.  The code fails this: with
a block-size-2 pool, entity 2's component occupies chunk (1,0) of the second
block, and after `destroy_entity(2)` the entity slot is the destroyed sentinel
but the chunk still carries owner 2 with zero destructor invocations — the
lookup walk never reaches the second block. -/
theorem c3_destroy_leaves_live_component :
    c3_state.map (fun r => (r.entities, r.destroyed_entities,
        (r.pools.get? 0).bind fun p =>
          (p.getChunk (1, 0)).map fun c => (c.entity, c.dtorCount))) =
      .ok ([0, 1, ECS_ENTITY_DESTROYED], [2], some (2, 0)) := rfl

/-- Claim C4: destroying an already-destroyed entity is claimed to trigger the
fatal invariant-violation path.  The code fails this: the asserts check only
that the argument is not the sentinel value and is in range, so a second
`destroy_entity(0)` completes normally and pushes id 0 onto the destroyed-id
list a second time. -/
theorem c4_double_destroy_completes :
    c4_state.map (fun r => (r.destroyed_entities, r.entities)) =
      .ok ([0, 0], [ECS_ENTITY_DESTROYED]) := rfl

/-- Claim C5: `create_component<T>(e, args)` then `get_component<T>(e)` is
claimed to return a pointer to the constructed value for every prior registry
state.  The code fails this once the prior state holds 30 components of `T`
(one default block): entity 30's component is constructed in the second block
at chunk (1,0) with value 130, yet `get_component` reports absence. -/
theorem c5_get_component_absent_after_create :
    c5_state.map (fun r => (r.get_component c5_key 30,
        (r.pools.get? 0).bind fun p =>
          (p.getChunk (1, 0)).map fun c => (c.entity, c.payload))) =
      .ok (.ok none, some (30, some 130)) := rfl



/-- `_construct` never raises the type-contradiction fault. -/
theorem construct_ne_tc {V : Type} (p : ObjectPool V) (e : Nat) (a : Addr) (v : V) :
    p.construct e a v ≠ .error .typeContradiction := by
  cases h : p.getChunk a with
  | none => simp [ObjectPool.construct, h]
  | some c =>
    simp only [ObjectPool.construct, h]
    split
    · simp
    · split <;> simp

/-- `_allocate_block` never raises the type-contradiction fault. -/
theorem allocate_block_ne_tc {V : Type} (p : ObjectPool V) :
    p.allocate_block ≠ .error .typeContradiction := by
  cases h : p.next with
  | none => simp [ObjectPool.allocate_block, h]
  | some a =>
    simp only [ObjectPool.allocate_block, h]
    split <;> simp

/-- The shared `malloc` body never raises the type-contradiction fault. -/
theorem mallocCore_ne_tc {V : Type} (p : ObjectPool V) (e : Nat) (v : V) :
    p.mallocCore e v ≠ .error .typeContradiction := by
  unfold ObjectPool.mallocCore
  split
  · split
    · rename_i a ha f hf
      intro hc
      injection hc with h1
      rw [h1] at hf
      exact construct_ne_tc _ _ _ _ hf
    · simp
  · split
    · rename_i f hf
      intro hc
      injection hc with h1
      rw [h1] at hf
      split at hf
      · exact allocate_block_ne_tc _ hf
      · cases hf
    · split
      · simp
      · exact construct_ne_tc _ _ _ _

/-- Claim C8 (amended): `malloc<T>` and `free<T>` raise the type-contradiction
fault exactly when the computed name of `T` differs from the pool's registered
type name; under equal names the type-contradiction branch is unreachable —
`free` on a valid pointer completes normally, and `malloc` never reports a
type contradiction (though it may still halt through the free-list-reuse
defect, see the counterexample). -/
theorem c8_type_guard_exact {V : Type} (p : ObjectPool V) (tname : String)
    (a : Addr) (e : Nat) (v : V) :
    (tname ≠ p.type_name →
      p.malloc tname e v = .error .typeContradiction ∧
      p.free tname a = .error .typeContradiction) ∧
    (tname = p.type_name →
      p.malloc tname e v ≠ .error .typeContradiction ∧
      ((p.getChunk a).isSome → ∃ q, p.free tname a = .ok q)) := by
  constructor
  · intro h
    constructor
    · simp [ObjectPool.malloc, h]
    · simp [ObjectPool.free, h]
  · intro h
    constructor
    · simpa [ObjectPool.malloc, h] using mallocCore_ne_tc p e v
    · intro hs
      rcases Option.isSome_iff_exists.mp hs with ⟨c, hc⟩
      cases hfree : p.free tname a with
      | ok q => exact ⟨q, rfl⟩
      | error f => simp [ObjectPool.free, h, hc] at hfree

/-- Witness for the amended claim C8 on a concrete pool: a wrong name makes
both operations halt with the type contradiction; the registered name makes
`malloc` avoid that fault and `free` complete normally. -/
theorem c8_type_guard_witness :
    (c8_witness_pool.malloc "X" 1 5 = .error .typeContradiction ∧
     c8_witness_pool.free "X" (0, 0) = .error .typeContradiction) ∧
    (c8_witness_pool.malloc "B" 1 5 ≠ .error .typeContradiction ∧
     ∃ q, c8_witness_pool.free "B" (0, 0) = .ok q) :=
  ⟨(c8_type_guard_exact c8_witness_pool "X" (0, 0) 1 5).1 (by decide),
   ⟨((c8_type_guard_exact c8_witness_pool "B" (0, 0) 1 5).2 rfl).1,
    ((c8_type_guard_exact c8_witness_pool "B" (0, 0) 1 5).2 rfl).2 (by decide)⟩⟩

/-- Counterexample to claim C8 as stated: on `c8_pool` the caller's name
equals the registered name, yet `malloc` neither completes normally nor
raises the type contradiction — it dereferences the null `m_next` on the
free-list-reuse path. -/
theorem c8_equal_names_malloc_faults :
    c8_pool.map (fun p =>
        (decide (p.type_name = "Vector3"), p.malloc "Vector3" 6 42)) =
      .ok (true, .error .nullDeref) := rfl

/-- Claim C9: calling `has_required` with the destroyed sentinel returns false
without touching the cached pointer tuple — the view comes back unchanged, so
a subsequent `get` still reads the pointers cached for the previously checked
entity. -/
theorem c9_sentinel_keeps_cache {V : Type} (w : View V) (r : Registry V) (k : TypeKey) :
    w.has_required r ECS_ENTITY_DESTROYED = .ok (w, false) ∧
    (w.has_required r ECS_ENTITY_DESTROYED).map (fun x => (x.1).get k) =
      .ok (w.get k) := by
  have h : w.has_required r ECS_ENTITY_DESTROYED = .ok (w, false) := by
    simp [View.has_required]
  exact ⟨h, by rw [h]; rfl⟩

/-- `fill_result` computes exactly the successful prefix of the spec's
in-order short-circuit scan: the found pointers cached positionally (with the
remaining slots cleared) and the found count. -/
theorem fill_result_eq_ref {V : Type} (r : Registry V) (e : Nat) (ks : List TypeKey) :
    View.fill_result r e ks =
      (View.ref_found r e ks).map (fun fd =>
        (fd.map some ++ List.replicate (ks.length - fd.length) none, fd.length)) := by
  induction ks with
  | nil => rfl
  | cons k ks ih =>
    cases hp : r.get_pool k.hash with
    | none =>
      simp [View.fill_result, View.ref_found, hp, Except.map,
            List.map_const', List.replicate_succ]
    | some i =>
      cases hq : r.pools[i]? with
      | none => simp [View.fill_result, View.ref_found, hp, hq, Except.map]
      | some p =>
        cases hl : p.get_entitys_object e with
        | error f => simp [View.fill_result, View.ref_found, hp, hq, hl, Except.map]
        | ok oa =>
          cases oa with
          | none =>
            simp [View.fill_result, View.ref_found, hp, hq, hl, Except.map,
                  List.map_const', List.replicate_succ]
          | some a =>
            cases hr : View.ref_found r e ks with
            | error f =>
              simp [View.fill_result, View.ref_found, hp, hq, hl, ih, hr, Except.map]
            | ok rest =>
              simp [View.fill_result, View.ref_found, hp, hq, hl, ih, hr, Except.map,
                    Nat.succ_sub_succ]

/-- Claim C6: for every view over K ≥ 1 required types, `has_required` returns
false immediately on the destroyed sentinel, and otherwise resolves each
required type's pool in order, looks the entity up per pool, caches the
pointer and counts it on success, short-circuits at the first failure, and
returns true iff the found count equals K — i.e. it coincides with the spec's
description `has_required_ref` (which also covers the specialised K = 1 path
of the code). -/
theorem c6_has_required_matches_description {V : Type} (w : View V) (r : Registry V)
    (e : Nat) (hk : w.keys ≠ []) :
    w.has_required r e = w.has_required_ref r e := by
  by_cases hd : e = ECS_ENTITY_DESTROYED
  · simp [View.has_required, View.has_required_ref, hd]
  · cases hkeys : w.keys with
    | nil => exact absurd hkeys hk
    | cons k ks =>
      cases ks with
      | nil =>
        simp only [View.has_required, View.has_required_ref, if_neg hd, hkeys]
        cases hp : r.get_pool k.hash with
        | none => simp [View.ref_found, hp]
        | some i =>
          cases hq : r.pools[i]? with
          | none => simp [View.ref_found, hp, hq]
          | some p =>
            cases hl : p.get_entitys_object e with
            | error f => simp [View.ref_found, hp, hq, hl]
            | ok oa =>
              cases oa with
              | none => simp [View.ref_found, hp, hq, hl]
              | some a => simp [View.ref_found, hp, hq, hl]
      | cons k2 ks2 =>
        simp only [View.has_required, View.has_required_ref, if_neg hd, hkeys]
        rw [fill_result_eq_ref]
        cases hr : View.ref_found r e (k :: k2 :: ks2) with
        | error f => simp [Except.map]
        | ok found => simp [Except.map]

/-- Claim C7: `destroy_entity(e)` immediately followed by `create_entity()`
returns `e`'s id again; in general `create_entity` pops the most recently
destroyed id (back of the list, LIFO) when the destroyed-id list is
non-empty and reactivates it in the entity array, and otherwise appends a
fresh id equal to the current entity count. -/
theorem c7_create_entity_lifo {V : Type} (r : Registry V) :
    (∀ e r', r.destroy_entity e = .ok r' →
      (r'.create_entity).map Prod.snd = .ok e) ∧
    (r.destroyed_entities = [] →
      r.create_entity =
        .ok (⟨r.entities ++ [r.entities.length], r.destroyed_entities, r.pools⟩,
             r.entities.length)) ∧
    (∀ l d, r.destroyed_entities = l ++ [d] → d < r.entities.length →
      r.create_entity =
        .ok (⟨r.entities.set d d, l, r.pools⟩, d)) := by
  refine ⟨?_, ?_, ?_⟩
  · intro e r' h
    unfold Registry.destroy_entity at h
    by_cases h1 : e = ECS_ENTITY_DESTROYED
    · rw [if_pos h1] at h; cases h
    · rw [if_neg h1] at h
      by_cases h2 : e < r.entities.length
      · rw [if_pos h2] at h
        cases hm : Registry.mapPools (Registry.destroy_pool_step e) r.pools with
        | error f => rw [hm] at h; cases h
        | ok pools' =>
          rw [hm] at h
          injection h with h3
          subst h3
          simp only [Registry.create_entity, List.getLast?_concat, List.length_set]
          rw [if_pos h2]
          rfl
      · rw [if_neg h2] at h; cases h
  · intro h0
    simp [Registry.create_entity, h0]
  · intro l d h0 hlt
    simp only [Registry.create_entity, h0, List.getLast?_concat, List.dropLast_concat]
    rw [if_pos hlt]

/-- `setChunk` preserves the block size, the number of blocks, and each
block's chunk count. -/
theorem setChunk_blocks_shape {V : Type} (p : ObjectPool V) (a : Addr) (c : Chunk V) :
    (p.setChunk a c).block_size = p.block_size ∧
    (p.setChunk a c).blocks.length = p.blocks.length ∧
    ∀ n, (∀ b ∈ p.blocks, b.length = n) → ∀ b ∈ (p.setChunk a c).blocks, b.length = n := by
  refine ⟨rfl, List.length_set _ _ _, ?_⟩
  intro n hn b hb
  by_cases hlt : a.1 < p.blocks.length
  · rcases List.mem_or_eq_of_mem_set hb with h | rfl
    · exact hn _ h
    · rw [List.length_set]
      have hg : p.blocks.getD a.1 [] = p.blocks[a.1] := by
        simp [List.getD_eq_getElem?_getD, List.getElem?_eq_getElem hlt]
      rw [hg]
      exact hn _ (List.getElem_mem _)
  · have hs : (p.setChunk a c).blocks = p.blocks :=
      List.set_eq_of_length_le (Nat.le_of_not_lt hlt)
    exact hn _ (hs ▸ hb)

/-- A dereferenceable chunk pointer implies the pool has at least one block. -/
theorem getChunk_blocks_ne {V : Type} (p : ObjectPool V) (a : Addr) (c : Chunk V)
    (h : p.getChunk a = some c) : p.blocks ≠ [] := by
  intro hnil
  unfold ObjectPool.getChunk at h
  rw [hnil] at h
  simp at h

/-- A successful `_construct` keeps the block size, the block count, and each
block's chunk count, and presupposes the pool already has the target chunk. -/
theorem construct_ok_shape {V : Type} (p : ObjectPool V) (e : Nat) (a : Addr) (v : V)
    (q : ObjectPool V) (addr : Addr) (h : p.construct e a v = .ok (q, addr)) :
    q.block_size = p.block_size ∧ q.blocks.length = p.blocks.length ∧
    (∀ n, (∀ b ∈ p.blocks, b.length = n) → ∀ b ∈ q.blocks, b.length = n) ∧
    p.blocks ≠ [] := by
  simp only [ObjectPool.construct] at h
  split at h
  · cases h
  · rename_i c heq
    split at h
    · cases h
    · rename_i na hna
      split at h
      · cases h
      · rename_i nc hnc
        injection h with h1
        injection h1 with h2 h3
        subst h2
        obtain ⟨s1, s2, s3⟩ :=
          setChunk_blocks_shape p a { c with entity := e, payload := some v }
        exact ⟨s1, s2, s3, getChunk_blocks_ne p a c heq⟩

/-- The fresh block holds exactly `block_size` chunks. -/
theorem newBlock_length {V : Type} (p : ObjectPool V) :
    p.newBlock.length = p.block_size := by
  simp [ObjectPool.newBlock]

/-- With a null `m_next` (the only reachable situation), `_allocate_block`
appends the fresh block and parks `m_next` on its first chunk. -/
theorem allocate_block_of_next_none {V : Type} (p : ObjectPool V) (h : p.next = none) :
    p.allocate_block =
      .ok { p with blocks := p.blocks ++ [p.newBlock],
                   next := some (p.blocks.length, 0) } := by
  simp only [ObjectPool.allocate_block, h]

/-- A successful `free(chunk)` keeps the block size, the block count, and each
block's chunk count. -/
theorem free_chunk_ok_shape {V : Type} (p : ObjectPool V) (a : Addr)
    (q : ObjectPool V) (h : p.free_chunk a = .ok q) :
    q.block_size = p.block_size ∧ q.blocks.length = p.blocks.length ∧
    ∀ n, (∀ b ∈ p.blocks, b.length = n) → ∀ b ∈ q.blocks, b.length = n := by
  unfold ObjectPool.free_chunk at h
  split at h
  · cases h
  · rename_i c heq
    injection h with h1
    subst h1
    exact setChunk_blocks_shape p a _

/-- A successful pool construction starts with a positive block size and no
blocks. -/
theorem create_ok_shape {V : Type} (name : String) (size hash bs : Nat) (d : V)
    (p : ObjectPool V) (h : ObjectPool.create name size hash bs d = .ok p) :
    0 < p.block_size ∧ p.blocks = [] ∧ p.next = none ∧
    p.freed_locations = [] ∧ p.block_size = bs := by
  unfold ObjectPool.create at h
  split at h
  · rename_i hcond
    injection h with h1
    subst h1
    exact ⟨hcond.2.2, rfl, rfl, rfl, rfl⟩
  · cases h

/-- A successful guarded `malloc` is a successful shared allocation body. -/
theorem malloc_ok_core {V : Type} (p : ObjectPool V) (t : String) (e : Nat) (v : V)
    (q : ObjectPool V) (addr : Addr) (h : p.malloc t e v = .ok (q, addr)) :
    p.mallocCore e v = .ok (q, addr) := by
  unfold ObjectPool.malloc at h
  split at h
  · exact h
  · cases h

/-- `create_entity` never touches the pool list. -/
theorem create_entity_pools {V : Type} (r r2 : Registry V) (n : Nat)
    (h : r.create_entity = .ok (r2, n)) : r2.pools = r.pools := by
  unfold Registry.create_entity at h
  split at h
  · split at h
    · injection h with h1
      injection h1 with h2 h3
      subst h2
      rfl
    · cases h
  · injection h with h1
    injection h1 with h2 h3
    subst h2
    rfl

/-- A successful shared `malloc` body on a pool with well-sized blocks yields
a pool with the same block size, at least one block, and well-sized blocks. -/
theorem mallocCore_ok_shape {V : Type} (p : ObjectPool V) (e : Nat) (v : V)
    (q : ObjectPool V) (addr : Addr)
    (hlen : ∀ b ∈ p.blocks, b.length = p.block_size)
    (h : p.mallocCore e v = .ok (q, addr)) :
    q.block_size = p.block_size ∧ q.blocks ≠ [] ∧
    ∀ b ∈ q.blocks, b.length = p.block_size := by
  unfold ObjectPool.mallocCore at h
  split at h
  · rename_i a hlast
    split at h
    · cases h
    · rename_i q1 addr1 hcons
      injection h with h1
      injection h1 with h2 h3
      subst h2
      obtain ⟨c1, c2, c3, c4⟩ := construct_ok_shape p e a v q1 addr1 hcons
      refine ⟨c1, ?_, ?_⟩
      · intro hq
        have hlq : q1.blocks = [] := hq
        have h0 : p.blocks.length = 0 := by rw [← c2, hlq]; rfl
        exact c4 (List.length_eq_zero.mp h0)
      · intro b hb
        exact c3 _ hlen b hb
  · split at h
    · cases h
    · rename_i q0 heq0
      split at h
      · cases h
      · rename_i a hna
        by_cases hn : p.next = none
        · rw [if_pos hn, allocate_block_of_next_none p hn] at heq0
          injection heq0 with h0
          subst h0
          have hlen0 : ∀ b ∈ p.blocks ++ [p.newBlock], b.length = p.block_size := by
            intro b hb
            rcases List.mem_append.mp hb with hm | hm
            · exact hlen b hm
            · rw [List.mem_singleton.mp hm]
              exact newBlock_length p
          obtain ⟨c1, c2, c3, c4⟩ := construct_ok_shape _ e a v q addr h
          refine ⟨c1, ?_, c3 _ hlen0⟩
          intro hq
          have h0 := c2
          rw [hq] at h0
          simp at h0
        · rw [if_neg hn] at heq0
          injection heq0 with h0
          subst h0
          obtain ⟨c1, c2, c3, c4⟩ := construct_ok_shape p e a v q addr h
          refine ⟨c1, ?_, c3 _ hlen⟩
          intro hq
          rw [hq] at c2
          exact c4 (List.length_eq_zero.mp c2.symm)

/-- The per-pool body of `destroy_entity` preserves block well-formedness. -/
theorem destroy_pool_step_WF {V : Type} (e : Nat) (p q : ObjectPool V)
    (hp : p.WFBlocks) (h : Registry.destroy_pool_step e p = .ok q) : q.WFBlocks := by
  unfold Registry.destroy_pool_step at h
  split at h
  · cases h
  · injection h with h1
    subst h1
    exact hp
  · rename_i a hget
    split at h
    · cases h
    · rename_i c hc
      split at h
      · obtain ⟨f1, f2, f3⟩ := free_chunk_ok_shape p a q h
        obtain ⟨w1, w2, w3⟩ := hp
        refine ⟨by rw [f1]; exact w1, ?_, by rw [f1]; exact f3 _ w3⟩
        intro hq
        rw [hq] at f2
        exact w2 (List.length_eq_zero.mp f2.symm)
      · injection h with h1
        subst h1
        exact hp

/-- The pool-loop of `destroy_entity` preserves any per-pool property its body
preserves. -/
theorem mapPools_pred {V : Type} (P : ObjectPool V → Prop)
    (f : ObjectPool V → Except Fault (ObjectPool V)) :
    ∀ (l l' : List (ObjectPool V)), (∀ p ∈ l, P p) →
      (∀ p q, p ∈ l → P p → f p = .ok q → P q) →
      Registry.mapPools f l = .ok l' → ∀ q ∈ l', P q := by
  intro l
  induction l with
  | nil =>
    intro l' _ _ h q hq
    unfold Registry.mapPools at h
    injection h with h1
    subst h1
    cases hq
  | cons p ps ih =>
    intro l' hall hpres h q hq
    unfold Registry.mapPools at h
    split at h
    · cases h
    · rename_i q0 hq0
      split at h
      · cases h
      · rename_i qs hqs
        injection h with h1
        subst h1
        rcases List.mem_cons.mp hq with rfl | hmem
        · exact hpres p q (List.mem_cons_self _ _) (hall p (List.mem_cons_self _ _)) hq0
        · exact ih qs (fun x hx => hall x (List.mem_cons_of_mem _ hx))
            (fun x y hx => hpres x y (List.mem_cons_of_mem _ hx)) hqs q hmem

/-- `destroy_entity` preserves pool well-formedness. -/
theorem destroy_entity_WF {V : Type} (r r2 : Registry V) (e : Nat)
    (hr : r.WFPools) (h : r.destroy_entity e = .ok r2) : r2.WFPools := by
  unfold Registry.destroy_entity at h
  split at h
  · cases h
  · split at h
    · split at h
      · cases h
      · rename_i pools' hpools
        injection h with h1
        subst h1
        intro q hq
        exact mapPools_pred _ _ r.pools pools' hr
          (fun p q _ hp hf => destroy_pool_step_WF e p q hp hf) hpools q hq
    · cases h

/-- The typed component-creation path preserves pool well-formedness: an
existing pool is mutated in place through `malloc`, a fresh pool allocates
its first block before it becomes observable. -/
theorem create_component_WF {V : Type} (r r2 : Registry V) (k : TypeKey) (e : Nat)
    (v d : V) (pa : Nat × Addr) (hr : r.WFPools)
    (h : r.create_component k e v d = .ok (r2, pa)) : r2.WFPools := by
  unfold Registry.create_component at h
  split at h
  · cases h
  · split at h
    · rename_i i hi
      split at h
      · cases h
      · rename_i p hp
        split at h
        · cases h
        · rename_i p' a hm
          injection h with h1
          injection h1 with h2 h3
          subst h2
          intro pp hpp
          rcases List.mem_or_eq_of_mem_set hpp with hmem | rfl
          · exact hr pp hmem
          · obtain ⟨w1, w2, w3⟩ := hr p (List.get?_mem hp)
            obtain ⟨m1, m2, m3⟩ :=
              mallocCore_ok_shape p e v pp a w3 (malloc_ok_core p k.name e v pp a hm)
            exact ⟨by rw [m1]; exact w1, m2, by rw [m1]; exact m3⟩
    · rename_i hi
      split at h
      · cases h
      · rename_i p0 hcr
        split at h
        · cases h
        · rename_i p' a hm
          injection h with h1
          injection h1 with h2 h3
          subst h2
          intro pp hpp
          rcases List.mem_append.mp hpp with hmem | hsing
          · exact hr pp hmem
          · rw [List.mem_singleton.mp hsing]
            obtain ⟨c1, c2, c3, c4, c5⟩ :=
              create_ok_shape k.name k.size k.hash ECS_REGISTRY_DEFAULT_POOL_BLOCK_SIZE d p0 hcr
            have hlen0 : ∀ b ∈ p0.blocks, b.length = p0.block_size := by
              rw [c2]; intro b hb; cases hb
            obtain ⟨m1, m2, m3⟩ :=
              mallocCore_ok_shape p0 e v p' a hlen0 (malloc_ok_core p0 k.name e v p' a hm)
            exact ⟨by rw [m1]; exact c1, m2, by rw [m1]; exact m3⟩

/-- The type-erased component-creation path preserves pool well-formedness. -/
theorem create_component_erased_WF {V : Type} (r r2 : Registry V) (hash : Nat)
    (name : String) (size : Nat) (d : V) (bs e : Nat) (pa : Nat × Addr)
    (hr : r.WFPools)
    (h : r.create_component_erased hash name size d bs e = .ok (r2, pa)) :
    r2.WFPools := by
  unfold Registry.create_component_erased at h
  split at h
  · cases h
  · split at h
    · rename_i i hi
      split at h
      · cases h
      · rename_i p hp
        split at h
        · cases h
        · rename_i p' a hm
          injection h with h1
          injection h1 with h2 h3
          subst h2
          intro pp hpp
          rcases List.mem_or_eq_of_mem_set hpp with hmem | rfl
          · exact hr pp hmem
          · obtain ⟨w1, w2, w3⟩ := hr p (List.get?_mem hp)
            obtain ⟨m1, m2, m3⟩ :=
              mallocCore_ok_shape p e p.default_value pp a w3 hm
            exact ⟨by rw [m1]; exact w1, m2, by rw [m1]; exact m3⟩
    · rename_i hi
      split at h
      · cases h
      · rename_i p0 hcr
        split at h
        · cases h
        · rename_i p' a hm
          injection h with h1
          injection h1 with h2 h3
          subst h2
          intro pp hpp
          rcases List.mem_append.mp hpp with hmem | hsing
          · exact hr pp hmem
          · rw [List.mem_singleton.mp hsing]
            obtain ⟨c1, c2, c3, c4, c5⟩ := create_ok_shape name size hash bs d p0 hcr
            have hlen0 : ∀ b ∈ p0.blocks, b.length = p0.block_size := by
              rw [c2]; intro b hb; cases hb
            obtain ⟨m1, m2, m3⟩ :=
              mallocCore_ok_shape p0 e p0.default_value p' a hlen0 hm
            exact ⟨by rw [m1]; exact c1, m2, by rw [m1]; exact m3⟩

/-- Every single caller-visible operation preserves pool well-formedness. -/
theorem step_WF {V : Type} (r r' : Registry V) (op : Op V)
    (hr : r.WFPools) (h : r.step op = .ok r') : r'.WFPools := by
  cases op with
  | create_entity =>
    simp only [Registry.step] at h
    cases hc : r.create_entity with
    | error f => rw [hc] at h; cases h
    | ok pr =>
      obtain ⟨r2, n⟩ := pr
      rw [hc] at h
      simp only [Except.map] at h
      injection h with h1
      subst h1
      intro p hp
      rw [create_entity_pools r r2 n hc] at hp
      exact hr p hp
  | destroy_entity e =>
    simp only [Registry.step] at h
    exact destroy_entity_WF r r' e hr h
  | create_component k e v d =>
    simp only [Registry.step] at h
    cases hc : r.create_component k e v d with
    | error f => rw [hc] at h; cases h
    | ok pr =>
      obtain ⟨r2, pa⟩ := pr
      rw [hc] at h
      simp only [Except.map] at h
      injection h with h1
      subst h1
      exact create_component_WF r r2 k e v d pa hr hc
  | create_component_erased hash name size d bs e =>
    simp only [Registry.step] at h
    cases hc : r.create_component_erased hash name size d bs e with
    | error f => rw [hc] at h; cases h
    | ok pr =>
      obtain ⟨r2, pa⟩ := pr
      rw [hc] at h
      simp only [Except.map] at h
      injection h with h1
      subst h1
      exact create_component_erased_WF r r2 hash name size d bs e pa hr hc

/-- Running any operation sequence preserves pool well-formedness. -/
theorem run_WF {V : Type} :
    ∀ (ops : List (Op V)) (r r' : Registry V),
      r.WFPools → Registry.run r ops = .ok r' → r'.WFPools := by
  intro ops
  induction ops with
  | nil =>
    intro r r' hr h
    unfold Registry.run at h
    injection h with h1
    subst h1
    exact hr
  | cons op ops ih =>
    intro r r' hr h
    unfold Registry.run at h
    split at h
    · cases h
    · rename_i r1 h1
      exact ih r1 r' (step_WF r r1 op hr h1) h

/-- Claim C10: in every registry state reachable from an empty registry by
caller-visible operations, every registered pool has a non-empty block list —
both creation paths allocate the first block before the pool becomes
observable and blocks are never removed — so the lookup's unconditional
access to the first chunk of the first block is well-defined. -/
theorem c10_registered_pools_have_blocks {V : Type} (ops : List (Op V))
    (r : Registry V) (h : Registry.run Registry.empty ops = .ok r) :
    ∀ p ∈ r.pools, p.blocks ≠ [] ∧ (p.getChunk (0, 0)).isSome := by
  have hwf : r.WFPools := run_WF ops Registry.empty r (by intro p hp; cases hp) h
  intro p hp
  obtain ⟨w1, w2, w3⟩ := hwf p hp
  refine ⟨w2, ?_⟩
  cases hb : p.blocks with
  | nil => exact absurd hb w2
  | cons b rest =>
    have hlb : b.length = p.block_size := w3 b (hb ▸ List.mem_cons_self b rest)
    unfold ObjectPool.getChunk
    rw [hb]
    simp only [List.get?]
    cases hg : b.get? 0 with
    | none =>
      rw [List.get?_eq_none] at hg
      rw [hlb] at hg
      exact absurd w1 (Nat.not_lt.mpr hg)
    | some c => rfl

/-- Witness for claim C10: the registry reached by one type-erased component
creation has exactly one pool, whose block list is non-empty and whose first
chunk is dereferenceable. -/
theorem c10_pools_witness :
    c10_pool.blocks ≠ [] ∧ (c10_pool.getChunk (0, 0)).isSome :=
  c10_registered_pools_have_blocks [.create_component_erased 7 "A" 1 0 1 0]
    c10_registry rfl c10_pool (List.mem_singleton.mpr rfl)

/-- Witness for claim C6 at a concrete single-type view and empty registry. -/
theorem c6_has_required_witness :
    c6_view.has_required Registry.empty 3 = c6_view.has_required_ref Registry.empty 3 :=
  c6_has_required_matches_description c6_view Registry.empty 3 (by decide)

/-- Witness for claim C7: on `c7_base`, destroying entity 1 and creating again
yields id 1; the fresh-append branch on the empty registry yields id 0; the
LIFO pop branch on `c7_registry` reactivates slot 1. -/
theorem c7_create_entity_witness :
    (c7_registry.create_entity).map Prod.snd = .ok 1 ∧
    (Registry.empty (V := Nat)).create_entity = .ok (⟨[0], [], []⟩, 0) ∧
    c7_registry.create_entity = .ok (⟨[0, 1], [], []⟩, 1) :=
  ⟨(c7_create_entity_lifo c7_base).1 1 c7_registry rfl,
   (c7_create_entity_lifo Registry.empty).2.1 rfl,
   (c7_create_entity_lifo c7_registry).2.2 [] 1 rfl (by decide)⟩
